import Mathlib

/-!
Verification development for the epupp repository (an EPUB parser).

The Python sources under src/ are shallowly embedded as Lean definitions:

* src/modules/epuppies.py : `find_file`, `build_chapter` (with its inner
  `rewrite_links` closure and paragraph-numbering loop);
* src/modules/epupp.py    : the `EpuPP` session (`__init__`, `get_epub_info`,
  `get_chapters`, `extract_images`, `__get_table_of_contents`);
* src/epupp.py            : the legacy revision of `get_epub_info`.

External collaborators (the zip library, the lxml parser) are embedded through
their observable contracts: an archive is the finite data the code reads from
it, a parse either yields a body or raises a named exception kind, and an
escaping Python exception is an `Except.error`.
-/

/-! ### Link rewriting (src/modules/epuppies.py, build_chapter.rewrite_links)

The source applies `re.compile(r'\S+(#\S+)').match(link)` and returns
`match.group(1)` when a match exists, else the link unchanged.  `re.match`
anchors at the start of the string.  The greedy `\S+` first consumes the whole
maximal non-whitespace prefix (length `m`) and then backtracks one character
at a time, so the match succeeds at the largest position `k` with
`1 <= k <= m - 2` holding a `'#'`; the group is then the rest of the
non-whitespace prefix from that `'#'` on.  The definitions below implement
exactly that backtracking order.  -/

/-- The whitespace class of a Python `\s` over `str` (`\S` is its complement):
ASCII whitespace plus the Unicode whitespace characters. -/
def isPySpace (c : Char) : Bool :=
  c ∈ ([' ', '\t', '\n', '\r', '\x0b', '\x0c',
        '\x1c', '\x1d', '\x1e', '\x1f', '\x85', '\xa0',
        ' ', ' ', ' ', ' ', ' ', ' ', ' ',
        ' ', ' ', ' ', ' ', ' ',
        ' ', ' ', ' ', ' ', '　'] : List Char)

/-- Backtracking search of `re.match(r'\S+(#\S+)')`: the largest index `k`
with `1 ≤ k ≤ top` such that `s[k] = '#'` (the greedy `\S+` shrinks from the
right, so higher positions are tried first). -/
def findHash (s : List Char) : Nat → Option Nat
  | 0 => none
  | k + 1 => if s[k + 1]? = some '#' then some (k + 1) else findHash s k

/-- `re.compile(r'\S+(#\S+)').match(link)`, returning `group(1)` on success:
with `m` the length of the maximal non-whitespace prefix, the group runs from
the matched `'#'` (at index at most `m - 2`, leaving a non-empty `\S+` for the
group) to the end of that prefix. -/
def matchFragment (link : List Char) : Option (List Char) :=
  let m := (link.takeWhile (fun c => !isPySpace c)).length
  match findHash link (m - 2) with
  | some k => some ((link.drop k).take (m - k))
  | none => none

/-- `rewrite_links` from `build_chapter`:
`return match.group(1) if match else link`. -/
def rewrite_links (link : List Char) : List Char :=
  match matchFragment link with
  | some frag => frag
  | none => link

/-! ### The flattened DOM model

`build_chapter` works on the parsed body through three flat lists produced by
the lxml collaborator: `body.cssselect("p")` (all paragraph elements in
document order; parsed HTML paragraphs do not nest), and
`body.cssselect("body>*")` (the direct children, document order).  An element
is embedded as its tag plus its attribute dictionary; the body is embedded as
its ordered element sequence, on which both selections are tag filters. -/

structure Elem where
  tag : String
  attrib : List (String × String)
deriving DecidableEq, Repr

/-- Python dictionary assignment `attrib[k] = v`: replace the value of an
existing key, otherwise append the pair. -/
def setAttr : List (String × String) → String → String → List (String × String)
  | [], k, v => [(k, v)]
  | (k', v') :: rest, k, v =>
    if k' == k then (k, v) :: rest else (k', v') :: setAttr rest k v

/-- The paragraph-numbering loop of `build_chapter`:
`for i,p in enumerate(body.cssselect("p")): p.attrib["data-pid"] = str(i)`,
walking the body elements in document order and giving the `i`-th paragraph
(tag `p`) the ordinal `i`, counting from `n`. -/
def numberPsAux : List Elem → Nat → List Elem
  | [], _ => []
  | e :: rest, n =>
    if e.tag == "p" then
      { e with attrib := setAttr e.attrib "data-pid" (toString n) } :: numberPsAux rest (n + 1)
    else
      e :: numberPsAux rest n

/-- The numbering loop started at 0, as in the source (`enumerate`). -/
def number_paragraphs (cs : List Elem) : List Elem := numberPsAux cs 0

/-- `p.rewrite_links(rewrite_links)`: rewrite the values of the link-carrying
attributes (lxml rewrites `href`/`src` style attributes) through
`rewrite_links`. -/
def rewriteLinksElem (e : Elem) : Elem :=
  { e with attrib := e.attrib.map (fun kv =>
      if kv.1 == "href" || kv.1 == "src" then
        (kv.1, ((rewrite_links kv.2.toList).asString : String))
      else kv) }

/-! ### Python exceptions and the chapter builder (src/modules/epuppies.py) -/

/-- The exception kinds the embedded code can raise or catch. -/
inductive PyExc where
  | attributeError
  | typeError
  | parserError
  | fileNotFoundError
  | badZipFile
  | keyError
  | indexError
deriving DecidableEq, Repr

/-- What one chapter input does when fed through
`html.fromstring(b''.join(file.readlines())).body`:
either the pipeline raises an exception kind before a body is available
(`failing`) — in particular lxml `document_fromstring` raises
`ParserError("Document is empty")` for an empty byte sequence, and a
non-file argument fails with a `TypeError` — or it yields the body,
embedded as its ordered element sequence (`parsed`). -/
inductive RawInput where
  | failing (e : PyExc)
  | parsed (body : List Elem)
deriving DecidableEq, Repr

/-- The root element returned by `build_chapter`: created by
`etree.Element(element)` with no attributes and no children, then filled by
appending the processed body children. -/
structure ChapterRoot where
  tag : String
  attrib : List (String × String)
  children : List Elem
deriving DecidableEq, Repr

/-- The exception classes named by `except (AttributeError, TypeError)` in
`build_chapter`; any other exception kind propagates out. -/
def caughtInChapter : PyExc → Bool
  | .attributeError => true
  | .typeError => true
  | _ => false

/-- `build_chapter(file, element="section")` from src/modules/epuppies.py:
the root is created before the `try` block; on success the paragraphs are
numbered, the body children have their links rewritten and are appended to
the root; an exception covered by `except (AttributeError, TypeError)` leaves
the root empty; any other exception escapes. -/
def build_chapter (inp : RawInput) (element : String) : Except PyExc ChapterRoot :=
  match inp with
  | .failing e =>
    if caughtInChapter e then .ok ⟨element, [], []⟩ else .error e
  | .parsed cs => .ok ⟨element, [], (numberPsAux cs 0).map rewriteLinksElem⟩

/-! ### Metadata (src/modules/epupp.py get_epub_info and the legacy
src/epupp.py revision) -/

/-- The `pkg:metadata` block of the package descriptor: for each of the six
canonical Dublin Core fields, the first text node if the element is present.
-/
structure MetaBlock where
  title : Option String
  language : Option String
  creator : Option String
  date : Option String
  identifier : Option String
  description : Option String
deriving DecidableEq, Repr

/-- `etree.Element("metadata")`: the synthetic empty block substituted when
the descriptor has no `pkg:metadata` (every field lookup then misses). -/
def emptyMeta : MetaBlock := ⟨none, none, none, none, none, none⟩

/-- The field list iterated by both revisions:
`['title','language','creator','date','identifier','description']`. -/
def metaFields : List String :=
  ["title", "language", "creator", "date", "identifier", "description"]

/-- `p.xpath('dc:%s/text()' % s)[0]` as a total lookup: the text of field `s`
of the block, if present. -/
def fieldOf (p : MetaBlock) (s : String) : Option String :=
  if s = "title" then p.title
  else if s = "language" then p.language
  else if s = "creator" then p.creator
  else if s = "date" then p.date
  else if s = "identifier" then p.identifier
  else if s = "description" then p.description
  else none

/-- The repackaging loop of `get_epub_info` in src/modules/epupp.py: a missing
`pkg:metadata` block is replaced by the synthetic empty element, and each of
the six fields is copied independently, an `IndexError` on one field being
caught there and recorded as the empty string.  (The genres and
table-of-contents entries the method also stores do not carry the six
canonical keys and are modelled separately.) -/
def epub_info_fields (d : Option MetaBlock) : List (String × String) :=
  let p := d.getD emptyMeta
  metaFields.map (fun s => (s, (fieldOf p s).getD ""))

/-- The copy loop of the legacy `get_epub_info` in src/epupp.py, where the
whole loop lives in a single `try`: fields are copied in order until the
first missing one raises `IndexError`, which aborts the loop with the keys
set so far. -/
def legacy_copy (p : MetaBlock) : List String → List (String × String)
  | [] => []
  | s :: rest =>
    match fieldOf p s with
    | some v => (s, v) :: legacy_copy p rest
    | none => []

/-- `get_epub_info` of src/epupp.py on an open archive: a missing
`pkg:metadata` block raises `IndexError` around the whole block, leaving the
record empty; otherwise the fields are copied until the first missing one. -/
def get_epub_info_legacy (d : Option MetaBlock) : List (String × String) :=
  match d with
  | none => []
  | some p => legacy_copy p metaFields

/-! ### The archive and the session (src/modules/epupp.py) -/

/-- The data the embedded code reads from an opened zip archive:
`entries` is `namelist()` (and `archive.read(name)` succeeds exactly when
`name` is listed), `manifest` the `pkg:item/@href` list of the package
descriptor, `descriptor` its `pkg:metadata` block (`none` when absent), and
`contents` maps an entry name to what parsing that entry as a chapter does.
-/
structure ZArchive where
  entries : List String
  manifest : List String
  descriptor : Option MetaBlock
  contents : List (String × RawInput)
deriving DecidableEq, Repr

/-- `find_file(archive, filename)` from src/modules/epuppies.py.  Each
`archive.read(new_filename)` probe succeeds exactly when the candidate is an
archive entry; a failure falls through to the next candidate via the bare
`except`.  After the third probe fails, the `except: pass` leaves
`new_filename` holding its last assigned value `"OEBPS/%s" % filename`, and
that value is returned. -/
def find_file (archive : ZArchive) (filename : String) : String :=
  if filename ∈ archive.entries then filename
  else if ("OPS/" ++ filename) ∈ archive.entries then "OPS/" ++ filename
  else if ("OEBPS/" ++ filename) ∈ archive.entries then "OEBPS/" ++ filename
  else "OEBPS/" ++ filename

/-- The session state of an `EpuPP` object: `ifile` is the archive handle
(`none` embeds the sentinel `""` assigned when opening failed softly) and
`epub_info` the mutable cached record. -/
structure Session where
  ifile : Option ZArchive
  epub_info : List (String × String)
deriving DecidableEq, Repr

/-- What lies at the input path handed to `zipfile.ZipFile`. -/
inductive PathKind where
  | missing
  | notArchive
  | validArchive (z : ZArchive)
deriving DecidableEq, Repr

/-- The contract of the `zipfile.ZipFile` constructor: `FileNotFoundError`
for a missing path, `zipfile.BadZipFile` for an existing file that is not a
zip archive, otherwise the opened handle. -/
def zipfile_ZipFile : PathKind → Except PyExc ZArchive
  | .missing => .error .fileNotFoundError
  | .notArchive => .error .badZipFile
  | .validArchive z => .ok z

/-- `EpuPP.__init__` from src/modules/epupp.py: `self.epub_info = {}`, then
`self.ifile = zipfile.ZipFile(input_file)` guarded by
`except FileNotFoundError`, which substitutes the sentinel `""`.  Any other
exception of the constructor is not caught and escapes `__init__`. -/
def epupp_init (p : PathKind) : Except PyExc Session :=
  match zipfile_ZipFile p with
  | .ok z => .ok ⟨some z, []⟩
  | .error .fileNotFoundError => .ok ⟨none, []⟩
  | .error e => .error e

/-- `EpuPP.get_epub_info` from src/modules/epupp.py as a state transformer:
`if not self.ifile: return` yields `none`; otherwise the record is computed
only when `self.epub_info` is still empty, and the (possibly cached) record
is returned together with the new state. -/
def get_epub_info (s : Session) : Option (List (String × String)) × Session :=
  match s.ifile with
  | none => (none, s)
  | some z =>
    if s.epub_info.isEmpty then
      (some (epub_info_fields z.descriptor), { s with epub_info := epub_info_fields z.descriptor })
    else
      (some s.epub_info, s)

/-- The content-type filter of `get_chapters`:
`".htm" in filename or ".xml" in filename` (substring containment). -/
def startsWithChars : List Char → List Char → Bool
  | [], _ => true
  | _ :: _, [] => false
  | a :: as, b :: bs => a == b && startsWithChars as bs

/-- Substring containment, the Python `in` operator on strings. -/
def hasSub (needle : List Char) : List Char → Bool
  | [] => needle.isEmpty
  | c :: rest => startsWithChars needle (c :: rest) || hasSub needle rest

/-- `".htm" in filename or ".xml" in filename`. -/
def isContentFile (f : String) : Bool :=
  hasSub ".htm".toList f.toList || hasSub ".xml".toList f.toList

/-- The chapter loop of `get_epub_info`-less `get_chapters`: for each
manifest href passing the content filter, resolve it with `find_file`, open
it (a `KeyError` is caught by `handle_error` and the loop continues), build
the chapter, tag it with `attrib["id"] = filename` and collect it.  An
exception escaping `build_chapter` is not handled here and escapes the loop.
-/
def build_chapters (z : ZArchive) : List String → Except PyExc (List ChapterRoot)
  | [] => .ok []
  | f :: rest =>
    if isContentFile f then
      match z.contents.lookup (find_file z f) with
      | none => build_chapters z rest
      | some raw =>
        match build_chapter raw "section" with
        | .error e => .error e
        | .ok ch =>
          match build_chapters z rest with
          | .error e => .error e
          | .ok cs => .ok ({ ch with attrib := setAttr ch.attrib "id" f } :: cs)
    else build_chapters z rest

/-- `EpuPP.get_chapters` from src/modules/epupp.py (list form):
`if not self.ifile: return` yields `.ok none` before anything else runs;
with an open handle the manifest is walked by the chapter loop.  (The images
bookkeeping the method also performs feeds only the missing helpers module
and is not observable in the result modelled here.) -/
def get_chapters (s : Session) : Except PyExc (Option (List ChapterRoot)) :=
  match s.ifile with
  | none => .ok none
  | some z => (build_chapters z z.manifest).map some

/-- `base_path.rstrip("/")`. -/
def stripTrailingSlashes (s : String) : String :=
  ((s.toList.reverse.dropWhile (fun c => c == '/')).reverse).asString

/-- `EpuPP.__get_book_dir` on an open archive:
`"%s/%s/%s" % (base_path.rstrip("/"), info['title'], info['identifier'])`
(both keys always exist in the computed record, so the `KeyError` branch is
unreachable for an open handle). -/
def book_dir (base : String) (z : ZArchive) : String :=
  stripTrailingSlashes base ++ "/" ++
    ((epub_info_fields z.descriptor).lookup "title").getD "" ++ "/" ++
    ((epub_info_fields z.descriptor).lookup "identifier").getD ""

/-- `EpuPP.extract_images`: `if not self.ifile or not self.__get_book_dir():
return` yields `none` (the first disjunct short-circuits for an absent
handle); otherwise the images directory path
`"%s/%s/" % (book_dir, "images")` is recorded and returned.  The per-file
byte copies are filesystem effects outside the model. -/
def extract_images (base : String) (s : Session) : Option String :=
  match s.ifile with
  | none => none
  | some z => some (book_dir base z ++ "/images/")

/-! ### The table of contents (src/modules/epupp.py,
`_EpuPP__get_table_of_contents`) -/

/-- One `ncx:navPoint` element as found in the document: each of the three
extracted pieces (`@id`, `navLabel/text/text()`, `content/@src`) may be
absent, in which case the corresponding indexed xpath access raises. -/
structure NavSrc where
  raw_id : Option String
  text : Option String
  done_id : Option String
deriving DecidableEq, Repr

/-- One retained navpoint record `{'raw_id':…, 'text':…, 'done_id':…}`. -/
structure NavPoint where
  raw_id : String
  text : String
  done_id : String
deriving DecidableEq, Repr

/-- The navpoint loop: per element, the record literal is built inside an
inner `try`; any missing piece raises before the record is complete and the
bare `except: pass` drops the element, the `else` arm appending only
complete records. -/
def processNavpoints : List NavSrc → List NavPoint
  | [] => []
  | np :: rest =>
    match np.raw_id, np.text, np.done_id with
    | some a, some b, some c => ⟨a, b, c⟩ :: processNavpoints rest
    | _, _, _ => processNavpoints rest

/-- Completeness of a navpoint element, as the spec describes the retained
ones: all three required sub-fields present. -/
def isComplete (np : NavSrc) : Bool :=
  np.raw_id.isSome && np.text.isSome && np.done_id.isSome

/-- The record a complete navpoint element yields. -/
def asPoint (np : NavSrc) : NavPoint :=
  ⟨np.raw_id.getD "", np.text.getD "", np.done_id.getD ""⟩

/-- The parsed content of one `.ncx` archive entry. -/
structure NcxDoc where
  docTitle : Option String
  docAuthor : Option String
  navpoints : List NavSrc
deriving DecidableEq, Repr

/-- The table-of-contents record `{'title': None, 'author': None,
'navpoints': []}`; absent title and author stay the sentinel `None`. -/
structure Toc where
  title : Option String
  author : Option String
  navpoints : List NavPoint
deriving DecidableEq, Repr

/-- Processing of one `.ncx` file inside the per-file `try` of
`__get_table_of_contents`, mutating `toc` sequentially:
`toc['title'] = …[0]` raises `IndexError` when the document has no title,
aborting the block before author and navpoints are read; with a title set,
a missing author raises after the title assignment, aborting before the
navpoints; only with both present is the navpoint loop reached, appending to
the accumulated list. -/
def toc_process_doc (toc : Toc) (d : NcxDoc) : Toc :=
  match d.docTitle with
  | none => toc
  | some t =>
    match d.docAuthor with
    | none => { toc with title := some t }
    | some a =>
      { title := some t, author := some a,
        navpoints := toc.navpoints ++ processNavpoints d.navpoints }

/-- `__get_table_of_contents` over the parsed `.ncx` entries of the archive,
in `namelist()` order, starting from the all-absent record. -/
def get_table_of_contents (docs : List NcxDoc) : Toc :=
  docs.foldl toc_process_doc ⟨none, none, []⟩

/-! ## Helper lemmas -/

theorem takeWhile_eq_self_of_all {α} (p : α → Bool) :
    ∀ l : List α, (∀ c ∈ l, p c = true) → l.takeWhile p = l := by
  intro l h
  induction l with
  | nil => rfl
  | cons a l ih =>
    rw [List.takeWhile_cons, h a (List.mem_cons_self a l)]
    simp [ih fun c hc => h c (List.mem_cons_of_mem a hc)]

theorem findHash_hash (s : List Char) :
    ∀ top k, findHash s top = some k → s[k]? = some '#' := by
  intro top
  induction top with
  | zero => intro k h; simp [findHash] at h
  | succ t ih =>
    intro k h
    by_cases hc : s[t + 1]? = some '#'
    · simp only [findHash, if_pos hc, Option.some.injEq] at h
      exact h ▸ hc
    · simp only [findHash, if_neg hc] at h
      exact ih k h

theorem findHash_eq_some (s : List Char) :
    ∀ top k, 1 ≤ k → k ≤ top → s[k]? = some '#' →
      (∀ j, k < j → j ≤ top → s[j]? ≠ some '#') →
      findHash s top = some k := by
  intro top
  induction top with
  | zero => intro k h1 h2 _ _; omega
  | succ t ih =>
    intro k h1 h2 hk hmax
    by_cases hc : s[t + 1]? = some '#'
    · have hkt : k = t + 1 := by
        by_contra hne
        exact hmax (t + 1) (by omega) (Nat.le_refl _) hc
      subst hkt
      simp [findHash, hc]
    · have hkt : k ≤ t := by
        by_contra hgt
        have hke : k = t + 1 := by omega
        exact hc (hke ▸ hk)
      simp only [findHash, if_neg hc]
      exact ih k h1 hkt hk fun j hj1 hj2 => hmax j hj1 (by omega)

theorem isPySpace_hash : isPySpace '#' = false := by decide

/-- Core behaviour of the link-rewriting regex: on a whitespace-free link of
the shape `A#B` with `B` fragment-only (no further `'#'`), the whole
reference collapses to `#B`. -/
theorem rewrite_links_split (A B : List Char) (hA : A ≠ []) (hB : B ≠ [])
    (hAs : ∀ c ∈ A, isPySpace c = false) (hBs : ∀ c ∈ B, isPySpace c = false)
    (hBh : '#' ∉ B) :
    rewrite_links (A ++ '#' :: B) = '#' :: B := by
  have hall : ∀ c ∈ A ++ '#' :: B, (fun c => !isPySpace c) c = true := by
    intro c hc
    rcases List.mem_append.1 hc with h | h
    · simp [hAs c h]
    · rcases List.mem_cons.1 h with rfl | h
      · simp [isPySpace_hash]
      · simp [hBs c h]
  have htw : (A ++ '#' :: B).takeWhile (fun c => !isPySpace c) = A ++ '#' :: B :=
    takeWhile_eq_self_of_all _ _ hall
  have hlen : (A ++ '#' :: B).length = A.length + B.length + 1 := by
    simp [List.length_append]; omega
  have hApos : 1 ≤ A.length := List.length_pos.2 hA
  have hBpos : 1 ≤ B.length := List.length_pos.2 hB
  have hgetA : (A ++ '#' :: B)[A.length]? = some '#' := by
    rw [List.getElem?_append_right (Nat.le_refl _)]
    simp
  have hmax : ∀ j, A.length < j → j ≤ (A ++ '#' :: B).length - 2 →
      (A ++ '#' :: B)[j]? ≠ some '#' := by
    intro j hj _ hcontra
    rw [List.getElem?_append_right (Nat.le_of_lt hj)] at hcontra
    have hj1 : 1 ≤ j - A.length := by omega
    rcases Nat.exists_eq_add_of_le hj1 with ⟨i, hi⟩
    rw [hi] at hcontra
    rw [Nat.add_comm 1 i] at hcontra
    simp only [List.getElem?_cons_succ] at hcontra
    exact hBh (List.getElem?_mem hcontra)
  have hfind : findHash (A ++ '#' :: B) ((A ++ '#' :: B).length - 2) = some A.length := by
    apply findHash_eq_some _ _ _ hApos (by omega) hgetA hmax
  have hm : matchFragment (A ++ '#' :: B) = some ('#' :: B) := by
    unfold matchFragment
    rw [htw]
    simp only [hfind]
    rw [List.drop_left A ('#' :: B)]
    have htake : (A ++ '#' :: B).length - A.length = ('#' :: B).length := by
      rw [hlen, List.length_cons]; omega
    rw [htake, List.take_length]
  unfold rewrite_links
  rw [hm]

theorem matchFragment_none_of_no_hash (l : List Char) (h : '#' ∉ l) :
    matchFragment l = none := by
  cases hf : findHash l ((l.takeWhile (fun c => !isPySpace c)).length - 2) with
  | none => simp only [matchFragment, hf]
  | some k =>
    exact absurd (List.getElem?_mem (findHash_hash l _ k hf)) h

/-! ## Claims -/

/-- C1: a hyperlink reference matching `\S+(#\S+)` — a non-whitespace run,
a `'#'`, and a hash-free fragment — is rewritten by `build_chapter`'s
`rewrite_links` to exactly its `#fragment` portion, and a reference the
pattern does not match (in particular one containing no `'#'` at all, such
as `images/pic.png`) is left unchanged. -/
theorem rewrite_links_fragment (A B link : List Char) (hA : A ≠ []) (hB : B ≠ [])
    (hAs : ∀ c ∈ A, isPySpace c = false) (hBs : ∀ c ∈ B, isPySpace c = false)
    (hBh : '#' ∉ B) :
    rewrite_links (A ++ '#' :: B) = '#' :: B ∧
    (matchFragment link = none → rewrite_links link = link) ∧
    ('#' ∉ link → rewrite_links link = link) := by
  refine ⟨rewrite_links_split A B hA hB hAs hBs hBh, ?_, ?_⟩
  · intro h
    unfold rewrite_links
    rw [h]
  · intro h
    unfold rewrite_links
    rw [matchFragment_none_of_no_hash link h]

/-- C1 witness: `"chapter3.xhtml#sec2"` rewrites to `"#sec2"` and
`"images/pic.png"` is left unchanged. -/
theorem rewrite_links_fragment_check :
    rewrite_links ("chapter3.xhtml".toList ++ '#' :: "sec2".toList) = '#' :: "sec2".toList ∧
    rewrite_links "images/pic.png".toList = "images/pic.png".toList :=
  ⟨(rewrite_links_fragment "chapter3.xhtml".toList "sec2".toList "images/pic.png".toList
      (by decide) (by decide) (by decide) (by decide) (by decide)).1,
   (rewrite_links_fragment "chapter3.xhtml".toList "sec2".toList "images/pic.png".toList
      (by decide) (by decide) (by decide) (by decide) (by decide)).2.2 (by decide)⟩

/-- C10: when the reference holds several `'#'` characters inside one
non-whitespace run, the greedy `\S+` makes `rewrite_links` keep only the
fragment starting at the last `'#'`. -/
theorem rewrite_links_last_hash (A B C : List Char) (hA : A ≠ []) (hC : C ≠ [])
    (hAs : ∀ c ∈ A, isPySpace c = false) (hBs : ∀ c ∈ B, isPySpace c = false)
    (hCs : ∀ c ∈ C, isPySpace c = false) (hCh : '#' ∉ C) :
    rewrite_links (A ++ '#' :: (B ++ '#' :: C)) = '#' :: C := by
  have hassoc : A ++ '#' :: (B ++ '#' :: C) = (A ++ '#' :: B) ++ '#' :: C := by
    simp
  rw [hassoc]
  apply rewrite_links_split _ _ (by simp [hA]) hC _ hCs hCh
  intro c hc
  rcases List.mem_append.1 hc with h | h
  · exact hAs c h
  · rcases List.mem_cons.1 h with rfl | h
    · exact isPySpace_hash
    · exact hBs c h

/-- C10 witness: `"part1.xhtml#a#b"` rewrites to `"#b"`, the fragment at the
last `'#'`. -/
theorem rewrite_links_last_hash_check :
    rewrite_links ("part1.xhtml".toList ++ '#' :: ("a".toList ++ '#' :: "b".toList))
      = '#' :: "b".toList :=
  rewrite_links_last_hash "part1.xhtml".toList "a".toList "b".toList
    (by decide) (by decide) (by decide) (by decide) (by decide) (by decide)

/-- C2 counterexample: with no matching entry at all (empty archive),
`find_file` returns `"OEBPS/ch1.xhtml"`, not the original reference
`"ch1.xhtml"` — after the third probe fails, `new_filename` keeps its last
assigned value, so the claimed return of the original, unmodified reference
is false. -/
theorem find_file_fallback_cex :
    find_file ⟨[], [], none, []⟩ "ch1.xhtml" = "OEBPS/ch1.xhtml" ∧
    "OEBPS/ch1.xhtml" ≠ "ch1.xhtml" := by
  constructor
  · rfl
  · decide

/-- C2 amended: `find_file` tries the reference verbatim, then prefixed with
`"OPS/"`, then with `"OEBPS/"`, in that fixed order; when none of the three
candidates is an archive entry it returns the last candidate tried,
`"OEBPS/" ++ reference` (not the original reference), and it never raises
(it is a total function into the candidate strings). -/
theorem find_file_fallback_amended (z : ZArchive) (f : String) :
    (f ∈ z.entries → find_file z f = f) ∧
    (f ∉ z.entries → ("OPS/" ++ f) ∈ z.entries → find_file z f = "OPS/" ++ f) ∧
    (f ∉ z.entries → ("OPS/" ++ f) ∉ z.entries → ("OEBPS/" ++ f) ∈ z.entries →
      find_file z f = "OEBPS/" ++ f) ∧
    (f ∉ z.entries → ("OPS/" ++ f) ∉ z.entries → ("OEBPS/" ++ f) ∉ z.entries →
      find_file z f = "OEBPS/" ++ f) := by
  refine ⟨fun h1 => ?_, fun h1 h2 => ?_, fun h1 h2 h3 => ?_, fun h1 h2 h3 => ?_⟩ <;>
    simp [find_file, h1, *]

/-- C2 amended witness: in an archive holding only `"OPS/a.xhtml"`, the
reference `"a.xhtml"` misses verbatim and resolves at the `"OPS/"` prefix. -/
theorem find_file_fallback_amended_check :
    find_file ⟨["OPS/a.xhtml"], [], none, []⟩ "a.xhtml" = "OPS/a.xhtml" :=
  (find_file_fallback_amended ⟨["OPS/a.xhtml"], [], none, []⟩ "a.xhtml").2.1
    (by decide) (by decide)

/-- C3: the navpoint loop of the Table-of-Contents Builder keeps exactly the
navigation points whose three required sub-fields are all present, in
document order — an element missing any of id, label or target contributes
no record at all — and the output is never longer than the input. -/
theorem toc_navpoints_filtered (l : List NavSrc) :
    processNavpoints l = (l.filter isComplete).map asPoint ∧
    (processNavpoints l).length ≤ l.length := by
  induction l with
  | nil => exact ⟨rfl, Nat.le_refl _⟩
  | cons np rest ih =>
    obtain ⟨rid, txt, did⟩ := np
    refine ⟨?_, ?_⟩
    · cases rid <;> cases txt <;> cases did <;>
        simp [processNavpoints, isComplete, asPoint, ih.1]
    · cases rid <;> cases txt <;> cases did <;> simp [processNavpoints] <;>
        first
        | exact ih.2
        | exact Nat.le_succ_of_le ih.2

/-- C4 counterexample: in the legacy `get_epub_info` of src/epupp.py the six
fields are copied inside one `try`, so a descriptor lacking `dc:creator`
aborts the loop after title and language — the returned record omits the
`creator` key (and the three keys after it) instead of carrying `""`. -/
theorem epub_info_sixkeys_cex :
    get_epub_info_legacy
        (some ⟨some "T", some "en", none, some "2020", some "id1", some "d"⟩)
      = [("title", "T"), ("language", "en")] ∧
    (get_epub_info_legacy
        (some ⟨some "T", some "en", none, some "2020", some "id1", some "d"⟩)).lookup "creator"
      = none := by
  constructor <;> rfl

/-- C4 amended: the claim holds for the revision in src/modules/epupp.py,
whose per-field `try` records a missing field as `""`: for every canonical
key the returned record holds a string value, the empty string when the
source field is absent, even when the whole metadata block is missing.  In
the legacy revision (src/epupp.py) a missing field aborts the copy loop, so
the missing key and all later ones are absent from the record. -/
theorem epub_info_sixkeys_amended (d : Option MetaBlock) (s : String)
    (hs : s ∈ metaFields) :
    (epub_info_fields d).lookup s = some ((fieldOf (d.getD emptyMeta) s).getD "") := by
  have hs' : s = "title" ∨ s = "language" ∨ s = "creator" ∨ s = "date" ∨
      s = "identifier" ∨ s = "description" := by
    simpa [metaFields] using hs
  rcases hs' with rfl | rfl | rfl | rfl | rfl | rfl <;> rfl

/-- C4 amended witness: with the metadata block entirely missing, the
`creator` key is still present, holding the empty string. -/
theorem epub_info_sixkeys_amended_check :
    (epub_info_fields none).lookup "creator"
      = some ((fieldOf (Option.getD none emptyMeta) "creator").getD "") :=
  epub_info_sixkeys_amended none "creator" (by decide)

/-- C5 counterexample: `EpuPP.__init__` only guards
`except FileNotFoundError`; when the input path exists but is not a valid
archive, `zipfile.ZipFile` raises `BadZipFile`, which escapes construction —
contradicting the claim that no exception escapes in that case. -/
theorem epupp_init_softfail_cex :
    epupp_init .notArchive = .error .badZipFile := rfl

/-- C5 amended: opening fails softly only for a missing path
(`FileNotFoundError` is caught and the handle becomes the absent sentinel);
a file that is not a valid archive raises `BadZipFile` out of construction.
With the absent sentinel handle, metadata extraction, chapter extraction and
image extraction each return an absent value without raising. -/
theorem epupp_init_softfail_amended :
    epupp_init .missing = .ok ⟨none, []⟩ ∧
    epupp_init .notArchive = .error .badZipFile ∧
    (∀ z : ZArchive, epupp_init (.validArchive z) = .ok ⟨some z, []⟩) ∧
    (get_epub_info ⟨none, []⟩).1 = none ∧
    get_chapters ⟨none, []⟩ = .ok none ∧
    extract_images "./" ⟨none, []⟩ = none :=
  ⟨rfl, rfl, fun _ => rfl, rfl, rfl, rfl⟩

/-- Writing `data-pid` stores exactly the given ordinal under that key. -/
theorem lookup_setAttr (a : List (String × String)) (k v : String) :
    (setAttr a k v).lookup k = some v := by
  induction a with
  | nil => simp [setAttr, List.lookup]
  | cons p rest ih =>
    obtain ⟨k', v'⟩ := p
    by_cases h : k' == k
    · simp [setAttr, h, List.lookup]
    · have hne : ¬(k == k') := by
        simp only [beq_iff_eq] at h ⊢
        exact fun he => h he.symm
      simp [setAttr, h, List.lookup, hne, ih]

theorem numberPsAux_spec (cs : List Elem) : ∀ n : Nat,
    ((numberPsAux cs n).filter (fun e => e.tag == "p")).map
        (fun e => e.attrib.lookup "data-pid")
      = (List.range' n ((cs.filter (fun e => e.tag == "p")).length)).map
        (fun i => some (toString i)) ∧
    (numberPsAux cs n).length = cs.length := by
  induction cs with
  | nil => intro n; simp [numberPsAux]
  | cons e rest ih =>
    intro n
    by_cases h : e.tag == "p"
    · constructor
      · simp only [numberPsAux, if_pos h, List.filter_cons]
        have htag : ({ e with attrib := setAttr e.attrib "data-pid" (toString n) } : Elem).tag
            = e.tag := rfl
        rw [htag] at *
        simp only [h, if_pos, List.map_cons, List.length_cons, List.range'_succ, lookup_setAttr]
        rw [(ih (n + 1)).1]
      · simp only [numberPsAux, if_pos h, List.length_cons, (ih (n + 1)).2]
    · constructor
      · simp only [numberPsAux, if_neg h, List.filter_cons]
        exact (ih n).1
      · simp only [numberPsAux, if_neg h, List.length_cons, (ih n).2]

/-- C6: after `build_chapter`'s numbering loop, the paragraph elements of a
body, taken in document order, carry the `data-pid` ordinals
`0, 1, …, N-1` — zero-based, contiguous and unique — and the other elements
are neither added nor removed. -/
theorem paragraph_numbering_contiguous (cs : List Elem) :
    ((number_paragraphs cs).filter (fun e => e.tag == "p")).map
        (fun e => e.attrib.lookup "data-pid")
      = (List.range ((cs.filter (fun e => e.tag == "p")).length)).map
        (fun i => some (toString i)) ∧
    (number_paragraphs cs).length = cs.length := by
  have h := numberPsAux_spec cs 0
  rw [List.range_eq_range']
  exact ⟨h.1, h.2⟩

/-- C7: `get_epub_info` is idempotent per session.  Starting from a fresh
session on archive `z`, a second call returns the record of the first call
and leaves the cached record unchanged — and since the computed record
always carries the six keys, the `if not self.epub_info` guard is false on
the second call, so the result does not depend on the archive contents `z'`
seen at that moment: no re-parsing is observable even if the archive was
mutated between the calls. -/
theorem epub_info_idempotent (z z' : ZArchive) :
    (get_epub_info ⟨some z', (get_epub_info ⟨some z, []⟩).2.epub_info⟩).1
        = (get_epub_info ⟨some z, []⟩).1 ∧
    (get_epub_info ⟨some z', (get_epub_info ⟨some z, []⟩).2.epub_info⟩).2.epub_info
        = (get_epub_info ⟨some z, []⟩).2.epub_info :=
  ⟨rfl, rfl⟩

/-- C8 counterexample: a navigation document with no title but with an
author and one complete navigation point yields the all-absent record —
the missing title raises `IndexError` before the author and the navpoints
are read, so their extraction is not independent of the title. -/
theorem toc_title_author_cex :
    get_table_of_contents
        [⟨none, some "An Author", [⟨some "n1", some "Chapter 1", some "ch1.xhtml#s1"⟩]⟩]
      = ⟨none, none, []⟩ := rfl

/-- C8 amended: within one navigation file the title, the author and the
navpoints are extracted sequentially inside a single guarded block: a
missing title aborts the whole block (author stays the sentinel `none` and
no navpoints are collected, whatever the document holds); a missing author
keeps the already-assigned title but aborts the navpoints; only when both
are present is the navpoint loop reached.  Absent title and author are the
sentinel `none`, not an empty string. -/
theorem toc_title_author_amended (t a : String) (a? : Option String)
    (nps : List NavSrc) :
    toc_process_doc ⟨none, none, []⟩ ⟨none, a?, nps⟩ = ⟨none, none, []⟩ ∧
    toc_process_doc ⟨none, none, []⟩ ⟨some t, none, nps⟩ = ⟨some t, none, []⟩ ∧
    toc_process_doc ⟨none, none, []⟩ ⟨some t, some a, nps⟩
      = ⟨some t, some a, processNavpoints nps⟩ := by
  refine ⟨?_, rfl, ?_⟩
  · cases a? <;> rfl
  · simp [toc_process_doc]

/-- C9 counterexample: an empty byte sequence makes
`html.fromstring(b'')` raise `ParserError("Document is empty")`, an
exception kind not named by `except (AttributeError, TypeError)`, so it
escapes `build_chapter` instead of producing the empty container element. -/
theorem build_chapter_escape_cex :
    build_chapter (.failing .parserError) "section" = .error .parserError := rfl

/-- C9 amended: a parse failure raising `AttributeError` or `TypeError` is
caught inside `build_chapter`, which then returns the empty container
element, and a successfully parsed body never raises; but a failure raising
any other exception kind — in particular the `ParserError` lxml raises for
an empty byte sequence — is not caught and escapes `build_chapter`. -/
theorem build_chapter_errors_amended (cs : List Elem) :
    build_chapter (.failing .attributeError) "section" = .ok ⟨"section", [], []⟩ ∧
    build_chapter (.failing .typeError) "section" = .ok ⟨"section", [], []⟩ ∧
    build_chapter (.failing .parserError) "section" = .error .parserError ∧
    build_chapter (.parsed cs) "section"
      = .ok ⟨"section", [], (numberPsAux cs 0).map rewriteLinksElem⟩ :=
  ⟨rfl, rfl, rfl, rfl⟩
